import Mathlib

/-!
Shallow embedding of the rust-ringmaster daemon (FRIBDAQ/rust-ringmaster).

The definitions below translate, function by function, the request handling
code of `src/main.rs` and the ring bookkeeping of `src/rings/rings.rs`.
Machine integers (`u32`, `usize`) are modelled as `Nat`; the string parse of a
pid bounds the value below `2^32` exactly as `str::parse::<u32>` does.
Socket writes are modelled as a list of attempted `Reply` values; the
`fail_request` shutdown of the socket is modelled by a `closed` flag, and a
read on a shut-down or exhausted socket yields the empty word vector, as
`read_request` does in the source.  Thread spawns and process kills are
modelled as an explicit `Effect` trace.  A `panic!` of the handler thread
(the `unwrap()` on an out-of-range consumer slot in the connection-drop
cleanup) is modelled by `Option.none`.

The ring-buffer file itself lives in the external crate `nscldaq_ringbuffer`,
which is not part of this repository; its slot map is modelled from the spec
(spec section 6, RingMap collaborator) as the structure `RingFile` below.
-/

namespace RingMaster

/-- Modelled from the spec: the `UNUSED_ENTRY` sentinel of the external
`nscldaq_ringbuffer` crate, a `u32` value distinguishable from any live pid;
`format_ring_info` prints it as `-1`, so it is the all-ones `u32`. -/
def UNUSED_ENTRY : Nat := 4294967295

/-- Modelled from the spec: one consumer slot of the ring-file header, holding
the pid of the occupant (or `UNUSED_ENTRY`) and the backlog available to it. -/
structure ConsumerSlot where
  pid : Nat
  available : Nat
deriving DecidableEq

/-- Modelled from the spec: the ring-file header as seen through the external
`RingBufferMap` (spec section 6): the producer slot pid, the fixed array of
consumer slots, and the usage figures reported by `get_usage`. -/
structure RingFile where
  producer_pid : Nat
  consumers : List ConsumerSlot
  data_size : Nat
  free_space : Nat
  max_queued : Nat
deriving DecidableEq

/-- Modelled from the spec: `max_consumers()` of the RingMap collaborator. -/
def RingFile.max_consumers (rf : RingFile) : Nat := rf.consumers.length

/-- Modelled from the spec: `consumer(slot)` of the RingMap collaborator;
`none` models the `Err` returned for a slot index out of range. -/
def RingFile.consumer (rf : RingFile) (slot : Nat) : Option ConsumerSlot :=
  rf.consumers.get? slot

/-- Modelled from the spec: `free_producer(expected_pid)`, a compare-and-set
that is a no-op (`false`) when the current occupant differs. -/
def RingFile.free_producer (rf : RingFile) (expected : Nat) : RingFile × Bool :=
  if rf.producer_pid = expected then
    ({ rf with producer_pid := UNUSED_ENTRY }, true)
  else
    (rf, false)

/-- Modelled from the spec: `free_consumer(slot, expected_pid)`, a
compare-and-set that is a no-op when the occupant differs or the slot is out
of range. -/
def RingFile.free_consumer (rf : RingFile) (slot : Nat) (expected : Nat) :
    RingFile × Bool :=
  match rf.consumers.get? slot with
  | some c =>
      if c.pid = expected then
        ({ rf with consumers :=
            rf.consumers.set slot { c with pid := UNUSED_ENTRY } }, true)
      else
        (rf, false)
  | none => (rf, false)

/-- Modelled from the spec: the `RingStatus` usage record returned by
`get_usage` (spec section 3). -/
structure RingStatus where
  free_space : Nat
  producer_pid : Nat
  max_queued : Nat
  consumer_usage : List ConsumerSlot
deriving DecidableEq

/-- Modelled from the spec: `get_usage()`; the consumer usage sequence has one
element for each connected consumer (spec section 4.3). -/
def RingFile.get_usage (rf : RingFile) : RingStatus :=
  { free_space := rf.free_space
    producer_pid := rf.producer_pid
    max_queued := rf.max_queued
    consumer_usage := rf.consumers.filter (fun c => c.pid ≠ UNUSED_ENTRY) }

/-- Association-list map with the replace-on-insert behaviour of the
`std::collections::HashMap` used by the source (iteration order is the list
order; the source never relies on hash order). Lookup. -/
def lookupA {κ α : Type} [DecidableEq κ] : List (κ × α) → κ → Option α
  | [], _ => none
  | (k0, v0) :: rest, k => if k0 = k then some v0 else lookupA rest k

/-- Insert for the association-list map: replaces the value at an existing
key in place, otherwise appends the new binding. -/
def insertA {κ α : Type} [DecidableEq κ] : List (κ × α) → κ → α → List (κ × α)
  | [], k, v => [(k, v)]
  | (k0, v0) :: rest, k, v =>
      if k0 = k then (k, v) :: rest else (k0, v0) :: insertA rest k v

/-- Remove for the association-list map: drops the binding of the key. -/
def removeA {κ α : Type} [DecidableEq κ] : List (κ × α) → κ → List (κ × α)
  | [], _ => []
  | (k0, v0) :: rest, k =>
      if k0 = k then rest else (k0, v0) :: removeA rest k

/-- The file system visible to the daemon: ring-file path to header map.
An absent path models a ring file that no longer opens. -/
abbrev FileSystem := List (String × RingFile)

/-- The `Client` enum of `src/rings/rings.rs`: how a client is attached. -/
inductive Client where
  | Producer (pid : Nat)
  | Consumer (pid : Nat) (slot : Nat)
deriving DecidableEq

/-- Pid carried by a `Client` value (the key used by `add_client`). -/
def Client.pid : Client → Nat
  | .Producer pid => pid
  | .Consumer pid _ => pid

/-- The `ClientMonitorInfo` of `src/rings/rings.rs` without the thread join
handle (a thread handle has no observable content beyond the stop flag). -/
structure ClientMonitorInfo where
  should_run : Bool
  client_info : Client
deriving DecidableEq

/-- `ClientMonitorInfo::new`: no monitor yet, `should_run` starts true. -/
def ClientMonitorInfo.new (client : Client) : ClientMonitorInfo :=
  { should_run := true, client_info := client }

/-- Observable side effects of the daemon: stopping a monitor thread,
the SIGKILL attempt of `kill_pid` (via the `sysinfo` crate), and the spawn
of the `ring2stdout` hoister child. -/
inductive Effect where
  | stopMonitor (pid : Nat)
  | kill (pid : Nat)
  | spawnHoister (ring : String)
deriving DecidableEq

/-- The `RingBufferInfo` of `src/rings/rings.rs`: ring file name plus the
pid-keyed map of client monitors. -/
structure RingBufferInfo where
  ring_file : String
  client_monitors : List (Nat × ClientMonitorInfo)
deriving DecidableEq

/-- `RingBufferInfo::new`: empty monitor map. -/
def RingBufferInfo.new (ring : String) : RingBufferInfo :=
  { ring_file := ring, client_monitors := [] }

/-- `RingBufferInfo::add_client`: keyed by the pid inside the client info;
a second insert with the same pid replaces the first (HashMap insert). -/
def RingBufferInfo.add_client (info : RingBufferInfo)
    (client : ClientMonitorInfo) : RingBufferInfo :=
  { info with client_monitors :=
        insertA info.client_monitors client.client_info.pid client }

/-- `RingBufferInfo::remove_client`: drop the entry for the pid; when one was
present, stop its monitor and attempt `kill_pid` (SIGKILL). -/
def RingBufferInfo.remove_client (info : RingBufferInfo) (pid : Nat) :
    RingBufferInfo × List Effect :=
  match lookupA info.client_monitors pid with
  | some _ =>
      ({ info with client_monitors := removeA info.client_monitors pid },
       [Effect.stopMonitor pid, Effect.kill pid])
  | none => (info, [])

/-- One turn of the `remove_all` loop: `remove_client` the pid, appending
its effects. -/
def remove_step (acc : RingBufferInfo × List Effect) (pid : Nat) :
    RingBufferInfo × List Effect :=
  let r := acc.1.remove_client pid
  (r.1, acc.2 ++ r.2)

/-- `RingBufferInfo::remove_all`: collect the recorded pids, then
`remove_client` each one in turn. -/
def RingBufferInfo.remove_all (info : RingBufferInfo) :
    RingBufferInfo × List Effect :=
  let pids := info.client_monitors.map Prod.fst
  pids.foldl remove_step (info, [])

/-- The ring inventory of `main.rs`: ring name to `RingBufferInfo`. -/
abbrev RingInventory := List (String × RingBufferInfo)

/-- Brace stripping applied by `connect_client` (main.rs lines 377-379),
`disconnect_client` (456-458), `record_connection` and
`unrecord_connection`: when the name is longer than two characters the first
and last characters are removed, by the slice `ring_name[1..len - 1]`;
shorter names pass through. -/
def strip_ring_name (s : String) : String :=
  if s.length > 2 then String.mk ((s.toList.drop 1).dropLast) else s

/-- The Rust `str::parse::<u32>`: an optional leading plus sign, then one or
more decimal digits, value below `2^32`. -/
def parse_u32 (s : String) : Option Nat :=
  let digits :=
    match s.toList with
    | '+' :: rest => rest
    | cs => cs
  if digits ≠ [] ∧ digits.all Char.isDigit then
    let v := digits.foldl (fun acc c => acc * 10 + (c.toNat - 48)) 0
    if v < 4294967296 then some v else none
  else
    none

/-- Character-predicate split with the Rust `str::split` semantics: a cut at
every separator character, so consecutive separators yield empty pieces and
the empty input yields one empty piece. -/
def splitChars (p : Char → Bool) : List Char → List (List Char)
  | [] => [[]]
  | c :: rest =>
      if p c then
        [] :: splitChars p rest
      else
        match splitChars p rest with
        | w :: ws => (c :: w) :: ws
        | [] => [[c]]

/-- The Rust `str::trim`: drop whitespace from both ends. -/
def trimChars (cs : List Char) : List Char :=
  ((cs.dropWhile Char.isWhitespace).reverse.dropWhile Char.isWhitespace).reverse

/-- `line_to_words` of main.rs: trim the line, then split on every whitespace
character (consecutive separators yield empty words, as the Rust
`split(char::is_whitespace)` does; the empty string yields one empty word). -/
def line_to_words (line : String) : List String :=
  (splitChars Char.isWhitespace (trimChars line.toList)).map
    (fun w => String.mk w)

/-- `compute_ring_buffer_path`: join the ring directory and the file name. -/
def compute_ring_buffer_path (directory : String) (filename : String) :
    String :=
  directory ++ "/" ++ filename

/-- `filename_from_path`: the last path component. -/
def filename_from_path (name : String) : String :=
  match ((splitChars (fun c => c = '/') name.toList).map
      (fun w => String.mk w)).getLast? with
  | some s => s
  | none => name

/-- The `connection_type.split(".")` of the source: cut the role word at
every dot. -/
def split_role (connection_type : String) : List String :=
  (splitChars (fun c => c = '.') connection_type.toList).map
    (fun w => String.mk w)

/-- The `TclList` of `src/tcllist/tcllist.rs`: a sequence of elements, each
either a simple string or a sublist.  The element vector is encoded as the
cons structure of this single inductive (`nil`, a simple element followed by
the rest, a sublist element followed by the rest). -/
inductive TclList where
  | nil
  | simple (s : String) (rest : TclList)
  | sub (l : TclList) (rest : TclList)
deriving DecidableEq

/-- `TclList::new`: the empty list. -/
def TclList.new : TclList := TclList.nil

/-- `TclList::add_element`: push a simple element at the end. -/
def TclList.add_element : TclList → String → TclList
  | TclList.nil, s => TclList.simple s TclList.nil
  | TclList.simple x r, s => TclList.simple x (r.add_element s)
  | TclList.sub l r, s => TclList.sub l (r.add_element s)

/-- `TclList::add_sublist`: push a sublist element at the end. -/
def TclList.add_sublist : TclList → TclList → TclList
  | TclList.nil, e => TclList.sub e TclList.nil
  | TclList.simple x r, e => TclList.simple x (r.add_sublist e)
  | TclList.sub l r, e => TclList.sub l (r.add_sublist e)

/-- Element-by-element part of the `Display` rendering of `TclList`: a
simple element verbatim plus a space, a sublist rendered inside braces plus
a space. -/
def TclList.renderItems : TclList → String
  | TclList.nil => ""
  | TclList.simple s r => s ++ " " ++ TclList.renderItems r
  | TclList.sub l r =>
      ("\x7b" ++ TclList.renderItems l ++ "\x7d") ++ " " ++
        TclList.renderItems r

/-- The `Display` rendering of `TclList`: an opening brace, every element
followed by one space, a closing brace. -/
def TclList.render (t : TclList) : String :=
  "\x7b" ++ TclList.renderItems t ++ "\x7d"

/-- The `RingInfo` struct of main.rs (data for one LIST entry). -/
structure RingInfo where
  name : String
  size : Nat
  max_consumers : Nat
  min_get : Nat
  info : RingStatus

/-- `min_gettable` of main.rs: minimum consumer availability, zero when no
consumer narrowed the all-ones sentinel. -/
def min_gettable (status : RingStatus) : Nat :=
  let result := status.consumer_usage.foldl
    (fun r item => if item.available < r then item.available else r)
    0xffffffffffffffff
  if result = 0xffffffffffffffff then 0 else result

/-- `get_ring_list_info` of main.rs: map the ring file and assemble the
listing data; an unopenable file is an error. -/
def get_ring_list_info (fs : FileSystem) (dir : String) (name : String) :
    Except String RingInfo :=
  let path := compute_ring_buffer_path dir name
  match lookupA fs path with
  | some map =>
      let usage := map.get_usage
      .ok { name := name
            size := map.data_size
            max_consumers := map.max_consumers
            min_get := min_gettable usage
            info := usage }
  | none => .error "failed map"

/-- `format_ring_info` of main.rs: render one inventory entry as the pair of
the ring name and its data sublist. -/
def format_ring_info (info : RingInfo) : String :=
  let result := TclList.new.add_element info.name
  let ring_info := ((TclList.new.add_element (toString info.size)).add_element
      (toString info.info.free_space)).add_element
      (toString info.max_consumers)
  let ring_info :=
    if info.info.producer_pid = UNUSED_ENTRY then
      ring_info.add_element "-1"
    else
      ring_info.add_element (toString info.info.producer_pid)
  let ring_info := (ring_info.add_element
      (toString info.info.max_queued)).add_element (toString info.min_get)
  let consumer_list := info.info.consumer_usage.foldl
    (fun cl consumer => cl.add_sublist
      ((TclList.new.add_element (toString consumer.pid)).add_element
        (toString consumer.available)))
    TclList.new
  let ring_info := ring_info.add_sublist consumer_list
  let result := result.add_sublist ring_info
  result.render

/-- Replies written to the control socket: the `OK\r\n` line, the
`OK BINARY FOLLOWS\r\n` preamble of REMOTE, the LIST payload line, and the
`FAIL reason\r\n` line written by `fail_request` (which also shuts the socket
down). -/
inductive Reply where
  | ok
  | okBinaryFollows
  | listing (s : String)
  | fail (reason : String)
deriving DecidableEq

/-- True exactly on `Reply.fail`, the replies written by `fail_request`. -/
def Reply.isFail : Reply → Bool
  | .fail _ => true
  | _ => false

/-- `connection_exists` of main.rs: structural equality search through the
registration vector. -/
def connection_exists (connection : Client) (registrations : List Client) :
    Bool :=
  registrations.any (fun c => connection = c)

/-- The per-connection reservation map of `handle_request`: ring name to the
vector of `Client` records this connection holds. -/
abbrev Connections := List (String × List Client)

/-- `record_connection` of main.rs: strip the braces again, then push the
client onto the ring entry (creating it when absent). -/
def record_connection (ring : String) (connections : Connections)
    (client : Client) : Connections :=
  let ringname := strip_ring_name ring
  match lookupA connections ringname with
  | some entry => insertA connections ringname (entry ++ [client])
  | none => connections ++ [(ringname, [client])]

/-- `unrecord_connection` of main.rs: find the first structurally equal
client in the ring entry and remove it; absent entries and missing clients
leave the map unchanged. -/
def unrecord_connection (ring : String) (connections : Connections)
    (client : Client) : Connections :=
  let ringname := strip_ring_name ring
  match lookupA connections ringname with
  | some entry =>
      if entry.contains client then
        insertA connections ringname (entry.erase client)
      else
        connections
  | none => connections

/-- Result record of `connect_client`: the replies written, the possibly
updated claimed pid of the connection, and the client to record on success. -/
structure ConnectResult where
  replies : List Reply
  client_pid : Nat
  client : Option Client
deriving DecidableEq

/-- `connect_client` of main.rs (lines 359-419): strip braces, require a
local peer, an inventoried ring and a parsable pid, enforce the claimed-pid
check, then build the producer or consumer client.  The claimed pid is
assigned as soon as the spoof check passes, before the connection type is
examined, exactly as in the source. -/
def connect_client (is_local : Bool) (ring : String)
    (connection_type : String) (pid : String) (_comment : String)
    (inventory : RingInventory) (client_pid : Nat) : ConnectResult :=
  let ring_name := strip_ring_name ring
  if ¬ is_local then
    { replies := [Reply.fail "CONNECT must be from a local process"]
      client_pid := client_pid
      client := none }
  else
    match lookupA inventory ring_name with
    | some _ =>
        match parse_u32 pid with
        | some pid_value =>
            if pid_value ≠ client_pid ∧ client_pid ≠ UNUSED_ENTRY then
              { replies := [Reply.fail "PID spoof attempt"]
                client_pid := client_pid
                client := none }
            else
              match split_role connection_type with
              | [t] =>
                  if t = "producer" then
                    { replies := [Reply.ok]
                      client_pid := pid_value
                      client := some (Client.Producer pid_value) }
                  else
                    { replies := [Reply.fail "Invalid connection type"]
                      client_pid := pid_value
                      client := none }
              | [t, sl] =>
                  if t = "consumer" then
                    match parse_u32 sl with
                    | some slot =>
                        { replies := [Reply.ok]
                          client_pid := pid_value
                          client := some (Client.Consumer pid_value slot) }
                    | none =>
                        { replies := [Reply.fail "Invalid consumer slot id"]
                          client_pid := pid_value
                          client := none }
                  else
                    { replies := [Reply.fail "Invalid connection type"]
                      client_pid := pid_value
                      client := none }
              | _ =>
                  { replies := [Reply.fail "Invalid connection type"]
                    client_pid := pid_value
                    client := none }
        | none =>
            { replies := [Reply.fail "Invalid process ID"]
              client_pid := client_pid
              client := none }
    | none =>
        { replies := [Reply.fail "No such ringbuffer in inventory"]
          client_pid := client_pid
          client := none }

/-- Result record of `disconnect_client`: replies written in order, the file
system after any slot free, the claimed pid, and the reservation removed on
success. -/
structure DisconnectResult where
  replies : List Reply
  fs : FileSystem
  client_pid : Nat
  removed : Option Client
deriving DecidableEq

/-- `disconnect_client` of main.rs (lines 445-557).  Note the source control
flow around the spoof check: `fail_request` is called but the function does
not return, so the registration search and the slot free still run with the
old claimed pid; the spoof failure merely prefixes the reply stream (and the
shut-down socket swallows the later `OK`). -/
def disconnect_client (is_local : Bool) (ring : String)
    (connection_type : String) (pid : String) (dir : String)
    (connections : Connections) (fs : FileSystem) (client_pid : Nat) :
    DisconnectResult :=
  let ring_name := strip_ring_name ring
  let filename := compute_ring_buffer_path dir ring_name
  if is_local then
    match lookupA connections ring_name with
    | some registrations =>
        match parse_u32 pid with
        | some pid_num =>
            let spoofed := pid_num ≠ client_pid ∧ client_pid ≠ UNUSED_ENTRY
            let pre : List Reply :=
              if spoofed then [Reply.fail "attemped PID spoof"] else []
            let client_pid := if spoofed then client_pid else pid_num
            match split_role connection_type with
            | [t] =>
                if t ≠ "producer" then
                  { replies := pre ++
                      [Reply.fail ("Connection type is invalid: " ++ t)]
                    fs := fs, client_pid := client_pid, removed := none }
                else
                  let client_info := Client.Producer pid_num
                  if connection_exists client_info registrations then
                    let fs2 :=
                      match lookupA fs filename with
                      | some map =>
                          insertA fs filename (map.free_producer pid_num).1
                      | none => fs
                    { replies := pre ++ [Reply.ok]
                      fs := fs2, client_pid := client_pid
                      removed := some client_info }
                  else
                    { replies := pre ++
                        [Reply.fail (toString pid_num ++
                          " is not the producer of " ++ ring_name)]
                      fs := fs, client_pid := client_pid, removed := none }
            | [t, sl] =>
                if t ≠ "consumer" then
                  { replies := pre ++
                      [Reply.fail ("Connection type is invalid: " ++ t)]
                    fs := fs, client_pid := client_pid, removed := none }
                else
                  match parse_u32 sl with
                  | some slot_num =>
                      let client_info := Client.Consumer pid_num slot_num
                      if connection_exists client_info registrations then
                        let fs2 :=
                          match lookupA fs filename with
                          | some map =>
                              insertA fs filename
                                (map.free_consumer slot_num pid_num).1
                          | none => fs
                        { replies := pre ++ [Reply.ok]
                          fs := fs2, client_pid := client_pid
                          removed := some client_info }
                      else
                        { replies := pre ++
                            [Reply.fail (toString pid_num ++
                              " is not a consumer on slot " ++
                              toString slot_num ++ " of ring " ++ ring_name)]
                          fs := fs, client_pid := client_pid
                          removed := none }
                  | none =>
                      { replies := pre ++
                          [Reply.fail ("Invalid slot number: " ++ sl)]
                        fs := fs, client_pid := client_pid, removed := none }
            | _ =>
                { replies := pre ++
                    [Reply.fail ("Invalid connection type: " ++
                      connection_type)]
                  fs := fs, client_pid := client_pid, removed := none }
        | none =>
            { replies := [Reply.fail (pid ++
                " - pid must parse as an unsigned integer")]
              fs := fs, client_pid := client_pid, removed := none }
    | none =>
        { replies := [Reply.fail (ring_name ++
            " is not a ring name registered to PID " ++ pid)]
          fs := fs, client_pid := client_pid, removed := none }
  else
    { replies := [Reply.fail "DISCONNECT must be local"]
      fs := fs, client_pid := client_pid, removed := none }

/-- `add_ring` of main.rs: key the inventory by the basename, value a fresh
`RingBufferInfo` holding the name as given. -/
def add_ring (name : String) (list : RingInventory) : RingInventory :=
  insertA list (filename_from_path name) (RingBufferInfo.new name)

/-- `register_ring` of main.rs: local only; a present name answers `OK`
without change; otherwise the ring file must open, and the ring is added. -/
def register_ring (is_local : Bool) (dir : String) (name : String)
    (inventory : RingInventory) (fs : FileSystem) :
    List Reply × RingInventory :=
  if is_local then
    match lookupA inventory name with
    | some _ => ([Reply.ok], inventory)
    | none =>
        let full_path := compute_ring_buffer_path dir name
        match lookupA fs full_path with
        | some _ => ([Reply.ok], add_ring name inventory)
        | none =>
            ([Reply.fail (name ++ " is not a ringbuffer")], inventory)
  else
    ([Reply.fail "REGISTER Must come from a local host"], inventory)

/-- `unregister_ring` of main.rs: local only; when the ring is inventoried,
`remove_all` its clients and drop the entry; the reply is `OK` whether or not
the ring was present. -/
def unregister_ring (is_local : Bool) (ring_name : String)
    (inventory : RingInventory) :
    List Reply × RingInventory × List Effect :=
  if is_local then
    match lookupA inventory ring_name with
    | some info =>
        let r := info.remove_all
        ([Reply.ok], removeA inventory ring_name, r.2)
    | none => ([Reply.ok], inventory, [])
  else
    ([Reply.fail "UNREGISTER request only legal from local peers"],
     inventory, [])

/-- One turn of the listing loop of `list_rings`: render an inventory entry
whose ring file still opens, otherwise collect its name as gone. -/
def list_scan_step (fs : FileSystem) (dir : String)
    (acc : TclList × List String) (nv : String × RingBufferInfo) :
    TclList × List String :=
  match get_ring_list_info fs dir nv.1 with
  | .ok ring_info => (acc.1.add_element (format_ring_info ring_info), acc.2)
  | .error _ => (acc.1, acc.2 ++ [nv.1])

/-- One turn of the pruning loop at the end of `list_rings`: `remove_all`
the clients of a ring that failed to list, then drop its entry. -/
def prune_step (acc : RingInventory × List Effect) (bad_ring : String) :
    RingInventory × List Effect :=
  match lookupA acc.1 bad_ring with
  | some ring_info =>
      let r := ring_info.remove_all
      (removeA acc.1 bad_ring, acc.2 ++ r.2)
  | none => acc

/-- `list_rings` of main.rs: write `OK`, render each inventory entry whose
ring file still opens (collecting those that do not), write the rendered
listing with its outer braces stripped, then `remove_all` and drop every
collected ring. -/
def list_rings (dir : String) (inventory : RingInventory)
    (fs : FileSystem) : List Reply × RingInventory × List Effect :=
  let scan := inventory.foldl (list_scan_step fs dir) (TclList.new, [])
  let listing_string := scan.1.render
  let listing_string :=
    if listing_string.length ≥ 2 then
      String.mk ((listing_string.toList.drop 1).dropLast)
    else
      listing_string
  let pruned := scan.2.foldl prune_step (inventory, [])
  ([Reply.ok, Reply.listing listing_string], pruned.1, pruned.2)

/-- `hoist_data` of main.rs: the raw ring name (no brace strip) must be
inventoried; then the preamble is written and the `ring2stdout` child is
spawned on the duplicated socket. -/
def hoist_data (ring : String) (inventory : RingInventory) :
    List Reply × List Effect :=
  if (lookupA inventory ring).isSome then
    ([Reply.okBinaryFollows], [Effect.spawnHoister ring])
  else
    ([Reply.fail (ring ++ " is not in the ring master inventory")], [])

/-- Inner loop of `load_initial_clients` for one ring whose file opened: add
an unmonitored producer client when the producer slot is occupied, and in
that case also each occupied consumer slot (the source scans the consumer
slots only inside the producer branch).  The slot access is in range by the
loop bound, so the match never hits the `none` branch. -/
def load_ring_clients (item : RingBufferInfo) (ring_map : RingFile) :
    RingBufferInfo :=
  let pid := ring_map.producer_pid
  if pid ≠ UNUSED_ENTRY then
    let item := item.add_client
      (ClientMonitorInfo.new (Client.Producer pid))
    (List.range ring_map.max_consumers).foldl
      (fun it slot =>
        match ring_map.consumer slot with
        | some c =>
            if c.pid ≠ UNUSED_ENTRY then
              it.add_client
                (ClientMonitorInfo.new (Client.Consumer c.pid slot))
            else
              it
        | none => it)
      item
  else
    item

/-- `load_initial_clients` of main.rs (lines 1050-1094): map every
inventoried ring; record its occupied slots as unmonitored clients; a ring
whose file no longer opens is collected and removed from the inventory. -/
def load_initial_clients (dir : String) (inventory : RingInventory)
    (fs : FileSystem) : RingInventory :=
  let stepped := inventory.map
    (fun nv =>
      match lookupA fs (compute_ring_buffer_path dir nv.1) with
      | some ring_map => ((nv.1, load_ring_clients nv.2 ring_map), false)
      | none => (nv, true))
  let deleted := (stepped.filter (fun p => p.2)).map (fun p => p.1.1)
  deleted.foldl (fun inv name => removeA inv name) (stepped.map (fun p => p.1))

/-- `inventory_rings` of main.rs: scan the directory entries, adding every
file that maps as a ring buffer, then reconstruct the pre-existing clients. -/
def inventory_rings (dir : String) (dir_entries : List String)
    (fs : FileSystem) : RingInventory :=
  let result := dir_entries.foldl
    (fun res name =>
      if (lookupA fs name).isSome then add_ring name res else res)
    []
  load_initial_clients dir result fs

/-- Per-ring part of the connection-drop cleanup at the end of
`handle_request` (main.rs lines 291-309): walk the reservations of one ring
whose file opened; a consumer reservation reads its slot through `unwrap()`,
so `none` (the panic of the handler thread on an out-of-range slot) aborts;
otherwise a slot whose occupant equals the reserved pid is freed. -/
def cleanup_ring : RingFile → List Client → Option RingFile
  | rm, [] => some rm
  | rm, a :: rest =>
      match a with
      | Client.Consumer pid slot =>
          match rm.consumer slot with
          | some c =>
              let rm2 := if c.pid = pid then (rm.free_consumer slot pid).1
                         else rm
              cleanup_ring rm2 rest
          | none => none
      | Client.Producer pid =>
          let rm2 := if rm.producer_pid = pid then (rm.free_producer pid).1
                     else rm
          cleanup_ring rm2 rest

/-- Connection-drop cleanup of `handle_request`: for each ring in the
reservation map, open its file (a file that no longer opens is silently
skipped) and process the reservations; `none` models the panic. -/
def cleanup_connections (dir : String) (connections : Connections)
    (fs : FileSystem) : Option FileSystem :=
  connections.foldlM
    (fun fsacc rc =>
      let ring_file := compute_ring_buffer_path dir rc.1
      match lookupA fsacc ring_file with
      | some ringmap =>
          (cleanup_ring ringmap rc.2).map
            (fun rm2 => insertA fsacc ring_file rm2)
      | none => some fsacc)
    fs

/-- How the handler loop ended: still reading, broke out of the loop on an
empty request (cleanup runs), or returned from the REMOTE arm (cleanup is
skipped by the early `return`). -/
inductive Term where
  | opened
  | broke
  | returned
deriving DecidableEq

/-- State of one connection handler thread: the locality of the peer, the
claimed pid (`UNUSED_ENTRY` until a request claims one), the reservation
map, the shared inventory and file system as this handler sees them, whether
`fail_request` has shut the socket down, and how the loop ended. -/
structure HandlerState where
  is_local : Bool
  pid : Nat
  connections : Connections
  inventory : RingInventory
  fs : FileSystem
  closed : Bool
  term : Term
deriving DecidableEq

/-- Output of one loop iteration of `handle_request`. -/
structure StepOut where
  state : HandlerState
  replies : List Reply
  effects : List Effect
deriving DecidableEq

/-- One iteration of the request loop of `handle_request` (main.rs lines
171-288): dispatch on the first word.  Every `Reply.fail` is written by
`fail_request`, which also shuts the socket down, so the `closed` flag is
set whenever a fail reply was produced.  The REMOTE arm returns from the
handler whatever `hoist_data` did. -/
def process_request (dir : String) (request : List String)
    (st : HandlerState) : StepOut :=
  match request with
  | [] =>
      { state := { st with closed := true, term := Term.broke }
        replies := [Reply.fail "Empty request"], effects := [] }
  | verb :: _ =>
      let failr : String → StepOut := fun reason =>
        { state := st, replies := [Reply.fail reason], effects := [] }
      let out : StepOut :=
        if verb = "LIST" then
          if request.length ≠ 1 then
            failr "LIST does not take any parameters"
          else
            let r := list_rings dir st.inventory st.fs
            { state := { st with inventory := r.2.1 }
              replies := r.1, effects := r.2.2 }
        else if verb = "REGISTER" then
          if request.length ≠ 2 then
            failr "REGISTER must have only a ring name parameter"
          else
            let r := register_ring st.is_local dir (request.get! 1)
              st.inventory st.fs
            { state := { st with inventory := r.2 }
              replies := r.1, effects := [] }
        else if verb = "UNREGISTER" then
          if request.length ≠ 2 then
            failr "UNREGISTER must have only a ring name parameter"
          else
            let r := unregister_ring st.is_local (request.get! 1)
              st.inventory
            { state := { st with inventory := r.2.1 }
              replies := r.1, effects := r.2.2 }
        else if verb = "CONNECT" then
          if request.length < 4 then
            failr "Unregister must have at least name, type, pid"
          else
            let comment := if request.length = 5 then request.get! 4 else ""
            let r := connect_client st.is_local (request.get! 1)
              (request.get! 2) (request.get! 3) comment st.inventory st.pid
            let st2 := { st with pid := r.client_pid }
            match r.client with
            | some client =>
                let conns2 :=
                  record_connection (request.get! 1) st2.connections client
                { state := { st2 with connections := conns2 }
                  replies := r.replies, effects := [] }
            | none => { state := st2, replies := r.replies, effects := [] }
        else if verb = "DISCONNECT" then
          if request.length ≠ 4 then
            failr "Invalid request length"
          else
            let r := disconnect_client st.is_local (request.get! 1)
              (request.get! 2) (request.get! 3) dir st.connections st.fs
              st.pid
            let st2 := { st with fs := r.fs, pid := r.client_pid }
            match r.removed with
            | some client =>
                let conns2 :=
                  unrecord_connection (request.get! 1) st2.connections client
                { state := { st2 with connections := conns2 }
                  replies := r.replies, effects := [] }
            | none => { state := st2, replies := r.replies, effects := [] }
        else if verb = "REMOTE" then
          if request.length = 2 then
            let r := hoist_data (request.get! 1) st.inventory
            { state := { st with term := Term.returned }
              replies := r.1, effects := r.2 }
          else
            failr "Invalid request length"
        else
          failr "Invalid Request"
      { out with state := { out.state with closed :=
            out.state.closed ∨ out.replies.any Reply.isFail } }

/-- The request loop of `handle_request`: read lines until the socket is
exhausted or shut down (either read yields the empty word vector, causing
the `Empty request` failure and the loop break) or the REMOTE arm returned.
Produces the final state, the log of word vector and replies per iteration,
and the effect trace. -/
def run_loop (dir : String) :
    List String → HandlerState →
    HandlerState × List (List String × List Reply) × List Effect
  | [], st =>
      if st.term = Term.opened then
        let out := process_request dir [] st
        (out.state, [([], out.replies)], out.effects)
      else
        (st, [], [])
  | l :: rest, st =>
      if st.term ≠ Term.opened then
        (st, [], [])
      else if st.closed then
        let out := process_request dir [] st
        (out.state, [([], out.replies)], out.effects)
      else
        let words := line_to_words l
        let out := process_request dir words st
        let r := run_loop dir rest out.state
        (r.1, (words, out.replies) :: r.2.1, out.effects ++ r.2.2)

/-- Result of a whole `handle_request` run: final state, reply log, effect
trace, and the file system after the connection-drop cleanup (`none` when
the cleanup panicked; a REMOTE return skips the cleanup). -/
structure RunResult where
  state : HandlerState
  log : List (List String × List Reply)
  effects : List Effect
  cleaned : Option FileSystem
deriving DecidableEq

/-- `handle_request` of main.rs: run the request loop on the incoming lines,
then, unless the REMOTE arm returned, run the connection-drop cleanup over
the reservations. -/
def handle_request (dir : String) (lines : List String)
    (st0 : HandlerState) : RunResult :=
  let r := run_loop dir lines st0
  let cleaned :=
    match r.1.term with
    | Term.returned => some r.1.fs
    | _ => cleanup_connections dir r.1.connections r.1.fs
  { state := r.1, log := r.2.1, effects := r.2.2, cleaned := cleaned }

/-- Initial handler state on accept: no claimed pid, no reservations. -/
def init_state (is_local : Bool) (inventory : RingInventory)
    (fs : FileSystem) : HandlerState :=
  { is_local := is_local, pid := UNUSED_ENTRY, connections := []
    inventory := inventory, fs := fs, closed := false
    term := Term.opened }

/-- A request succeeded when the first reply written for it is `OK` (a
spoof-rejected DISCONNECT writes `FAIL` first even though the source later
attempts an `OK` on the shut-down socket). -/
def req_success : List Reply → Bool
  | Reply.ok :: _ => true
  | _ => false

/-- The pid argument carried by a CONNECT or DISCONNECT word vector. -/
def carried_pid (request : List String) : Option Nat :=
  if 4 ≤ request.length ∧
      (request.get! 0 = "CONNECT" ∨ request.get! 0 = "DISCONNECT") then
    parse_u32 (request.get! 3)
  else
    none

/-- The pids carried by the successful CONNECT and DISCONNECT requests of a
run log. -/
def successful_pids (log : List (List String × List Reply)) : List Nat :=
  log.filterMap
    (fun e => if req_success e.2 then carried_pid e.1 else none)

/-- Total number of `Client` reservations held by a connection. -/
def countClients (connections : Connections) : Nat :=
  (connections.map (fun e => e.2.length)).sum

/-- An unoccupied consumer slot, for the concrete scenarios. -/
def exSlot : ConsumerSlot := { pid := UNUSED_ENTRY, available := 0 }

/-- A ring file with one (unoccupied) consumer slot and no producer. -/
def exRingFile : RingFile :=
  { producer_pid := UNUSED_ENTRY, consumers := [exSlot]
    data_size := 100, free_space := 100, max_queued := 0 }

/-- A file system holding the ring `R` under directory `d`. -/
def exFS : FileSystem := [("d/R", exRingFile)]

/-- An inventory knowing the ring `R`. -/
def exInventory : RingInventory := [("R", RingBufferInfo.new "R")]

/-- Fresh local connection against the example inventory. -/
def exInit : HandlerState := init_state true exInventory exFS

/-- A ring file whose producer slot is occupied by pid 4242 (for the
bootstrap scenario of C4). -/
def bootRingFile : RingFile :=
  { producer_pid := 4242, consumers := [exSlot]
    data_size := 100, free_space := 100, max_queued := 0 }

/-- The file system of the bootstrap scenario. -/
def bootFS : FileSystem := [("d/ringA", bootRingFile)]

/-- The ring record the bootstrap scan is expected to produce for
`bootRingFile`: the producer pid 4242 recorded as an unmonitored client. -/
def bootInfo : RingBufferInfo :=
  { ring_file := "d/ringA"
    client_monitors := [(4242, ClientMonitorInfo.new (Client.Producer 4242))] }

/-- An unlisted key is unbound. -/
theorem lookup_not_mem_keys {κ α : Type} [DecidableEq κ]
    (m : List (κ × α)) (k : κ) (h : k ∉ m.map Prod.fst) :
    lookupA m k = none := by
  induction m with
  | nil => simp [lookupA]
  | cons hd tl ih =>
      obtain ⟨k0, v0⟩ := hd
      simp only [List.map_cons, List.mem_cons, not_or] at h
      have hk : k0 ≠ k := fun e => h.1 e.symm
      simp [lookupA, hk, ih h.2]

/-- Reinserting the value already bound to a key leaves the map unchanged. -/
theorem insertA_lookup_self {κ α : Type} [DecidableEq κ]
    (m : List (κ × α)) (k : κ) (v : α) (h : lookupA m k = some v) :
    insertA m k v = m := by
  induction m with
  | nil => simp [lookupA] at h
  | cons hd tl ih =>
      obtain ⟨k0, v0⟩ := hd
      by_cases hk : k0 = k
      · subst hk
        simp only [lookupA, if_pos] at h
        rw [Option.some.injEq] at h
        subst h
        simp [insertA]
      · simp only [lookupA, if_neg hk] at h
        simp [insertA, hk, ih h]

/-- Removing one key does not change the binding of another. -/
theorem lookup_removeA_ne {κ α : Type} [DecidableEq κ]
    (m : List (κ × α)) (k q : κ) (h : k ≠ q) :
    lookupA (removeA m k) q = lookupA m q := by
  induction m with
  | nil => simp [removeA]
  | cons hd tl ih =>
      obtain ⟨k0, v0⟩ := hd
      by_cases hk : k0 = k
      · subst hk
        have : k0 ≠ q := h
        simp [removeA, lookupA, this]
      · by_cases hq : k0 = q
        · subst hq
          simp [removeA, lookupA, hk]
        · simp [removeA, lookupA, hk, hq, ih]

/-- Removal keeps an unbound key unbound. -/
theorem lookup_removeA_none {κ α : Type} [DecidableEq κ]
    (m : List (κ × α)) (k q : κ) (h : lookupA m q = none) :
    lookupA (removeA m k) q = none := by
  induction m with
  | nil => simpa [removeA] using h
  | cons hd tl ih =>
      obtain ⟨k0, v0⟩ := hd
      by_cases hq : k0 = q
      · simp [lookupA, hq] at h
      · by_cases hk : k0 = k
        · simp only [removeA, if_pos hk]
          simpa [lookupA, hq] using h
        · simp only [lookupA, if_neg hq] at h
          simp [removeA, lookupA, hk, hq, ih h]

/-- With unique keys, removal makes the removed key unbound. -/
theorem lookup_removeA_self {κ α : Type} [DecidableEq κ]
    (m : List (κ × α)) (k : κ) (hnd : (m.map Prod.fst).Nodup) :
    lookupA (removeA m k) k = none := by
  induction m with
  | nil => simp [removeA, lookupA]
  | cons hd tl ih =>
      obtain ⟨k0, v0⟩ := hd
      simp only [List.map_cons, List.nodup_cons] at hnd
      by_cases hk : k0 = k
      · subst hk
        simp only [removeA, if_pos rfl]
        exact lookup_not_mem_keys tl k0 hnd.1
      · simp [removeA, hk, lookupA, ih hnd.2]

/-- Keys of the map after a removal form a subset of the original keys. -/
theorem removeA_keys_sublist {κ α : Type} [DecidableEq κ]
    (m : List (κ × α)) (k : κ) :
    ((removeA m k).map Prod.fst).Sublist (m.map Prod.fst) := by
  induction m with
  | nil => simp [removeA]
  | cons hd tl ih =>
      by_cases hk : hd.1 = k
      · simp only [removeA, if_pos hk, List.map_cons]
        exact List.sublist_cons_of_sublist _ (List.Sublist.refl _)
      · simp only [removeA, if_neg hk, List.map_cons]
        exact List.Sublist.cons₂ _ ih

/-- Removal preserves uniqueness of keys. -/
theorem removeA_keys_nodup {κ α : Type} [DecidableEq κ]
    (m : List (κ × α)) (k : κ) (hnd : (m.map Prod.fst).Nodup) :
    ((removeA m k).map Prod.fst).Nodup :=
  (removeA_keys_sublist m k).nodup hnd

/-- A bound key is among the keys of the map. -/
theorem lookup_some_mem_keys {κ α : Type} [DecidableEq κ]
    (m : List (κ × α)) (k : κ) (v : α) (h : lookupA m k = some v) :
    k ∈ m.map Prod.fst := by
  induction m with
  | nil => simp [lookupA] at h
  | cons hd tl ih =>
      by_cases hk : hd.1 = k
      · simp [hk]
      · simp [lookupA, hk] at h
        simp [ih h]

/-- A key among the keys of the map is bound. -/
theorem mem_keys_lookup_isSome {κ α : Type} [DecidableEq κ]
    (m : List (κ × α)) (k : κ) (h : k ∈ m.map Prod.fst) :
    (lookupA m k).isSome := by
  induction m with
  | nil => simp at h
  | cons hd tl ih =>
      by_cases hk : hd.1 = k
      · simp [lookupA, hk]
      · simp only [List.map_cons, List.mem_cons] at h
        rcases h with h | h
        · exact absurd h.symm hk
        · simp [lookupA, hk, ih h]


/-- C1 counterexample: a connection that reserved consumer slot 5 of ring R,
whose file is still openable but has a single consumer slot, drives the
connection-drop cleanup into the `unwrap()` panic (modelled by `none`)
instead of completing as a silent no-op without failing or panicking. -/
theorem C1_counterexample :
    (handle_request "d" ["CONNECT \x7bR\x7d consumer.5 7\n"] exInit).state.connections
      = [("R", [Client.Consumer 7 5])]
    ∧ (handle_request "d" ["CONNECT \x7bR\x7d consumer.5 7\n"] exInit).cleaned
      = none := by
  decide

/-- C2 counterexample: two CONNECT requests on one connection both receive
`OK` while carrying different pids, because the first carried the
`UNUSED_ENTRY` sentinel, which passes the spoof check without claiming. -/
theorem C2_counterexample :
    successful_pids (handle_request "d"
      ["CONNECT \x7bR\x7d producer 4294967295\n",
       "CONNECT \x7bR\x7d consumer.0 42\n"] exInit).log
      = [4294967295, 42]
    ∧ (4294967295 : Nat) ≠ 42 := by
  decide

/-- C3 evaluation at the failing input: CONNECT with role `consumer.5` on a
ring with a single consumer slot is answered `OK` and recorded, with no
range check, although the crate documentation lists a nonexistent slot
number as a failure reason for CONNECT. -/
theorem C3_connect_oversized_slot_gets_ok :
    exRingFile.max_consumers = 1
    ∧ connect_client true "\x7bR\x7d" "consumer.5" "100" "" exInventory
        UNUSED_ENTRY
      = { replies := [Reply.ok], client_pid := 100
          client := some (Client.Consumer 100 5) } := by
  decide

/-- C4 evaluation at the failing input: the bootstrap scan records producer
4242 of `ringA` as an unmonitored client, yet a DISCONNECT naming exactly
that ring, role and pid on a fresh connection is failed, because
`disconnect_client` consults only the reservation map of the connection,
never the bootstrap-derived inventory clients. -/
theorem C4_bootstrap_disconnect_fails :
    inventory_rings "d" ["d/ringA"] bootFS = [("ringA", bootInfo)]
    ∧ (handle_request "d" ["DISCONNECT \x7bringA\x7d producer 4242\n"]
        (init_state true (inventory_rings "d" ["d/ringA"] bootFS) bootFS)).log.get! 0
      = (["DISCONNECT", "\x7bringA\x7d", "producer", "4242"],
         [Reply.fail "ringA is not a ring name registered to PID 4242"]) := by
  decide

/-- C5 counterexample: after the sentinel pid 4294967295 was reserved and
pid 42 was claimed, a DISCONNECT carrying 4294967295 is answered with the
spoof failure, yet the handler continues: it attempts an `OK`, frees the
slot, and removes the reservation, so the reservation map is changed by the
rejected request. -/
theorem C5_counterexample :
    ((handle_request "d"
      ["CONNECT \x7bR\x7d producer 4294967295\n",
       "CONNECT \x7bR\x7d producer 42\n",
       "DISCONNECT \x7bR\x7d producer 4294967295\n"] exInit).log.get! 2).2
      = [Reply.fail "attemped PID spoof", Reply.ok]
    ∧ (handle_request "d"
      ["CONNECT \x7bR\x7d producer 4294967295\n",
       "CONNECT \x7bR\x7d producer 42\n",
       "DISCONNECT \x7bR\x7d producer 4294967295\n"] exInit).state.connections
      = [("R", [Client.Producer 42])] := by
  decide

/-- C6 counterexample: the brace stripping removes the first and last
characters of any name longer than two characters even when they are not
braces, so the braceless name `abc` is looked up as `b` and a CONNECT naming
an inventoried ring `abc` fails the inventory lookup. -/
theorem C6_counterexample :
    strip_ring_name "abc" = "b"
    ∧ (connect_client true "abc" "producer" "1" ""
        [("abc", RingBufferInfo.new "abc")] UNUSED_ENTRY).replies
      = [Reply.fail "No such ringbuffer in inventory"] := by
  decide

/-- C7 evaluation at the failing input: after a well-formed LIST is answered
with the `OK` line and the listing line, the connection is not shut down and
a second LIST on the same connection is served in full. -/
theorem C7_list_connection_stays_open :
    (handle_request "d" ["LIST\n", "LIST\n"] exInit).log.length = 3
    ∧ ((handle_request "d" ["LIST\n", "LIST\n"] exInit).log.get! 0)
      = (["LIST"],
         [Reply.ok,
          Reply.listing "\x7bR \x7b100 100 1 -1 0 0 \x7b\x7d \x7d \x7d "])
    ∧ ((handle_request "d" ["LIST\n", "LIST\n"] exInit).log.get! 1)
      = (["LIST"],
         [Reply.ok,
          Reply.listing "\x7bR \x7b100 100 1 -1 0 0 \x7b\x7d \x7d \x7d "]) := by
  decide

/-- C8 counterexample: a request line consisting only of the terminator
tokenizes to one empty word, which falls to the unknown-verb arm, so the
reply is `FAIL Invalid Request` (and a socket shutdown), not
`FAIL Empty request`, which the source reserves for a read that returns no
data. -/
theorem C8_counterexample :
    (handle_request "d" ["\r\n"] exInit).log.get! 0
      = ([""], [Reply.fail "Invalid Request"])
    ∧ (handle_request "d" ["\r\n"] exInit).state.closed = true := by
  decide

/-- C1 (amended): when the handler exits, for each reservation of a ring the
cleanup frees the producer slot only if the current producer pid equals the
reserved pid, frees an in-range consumer slot only if its occupant equals
the reserved pid (a mismatch writes the same header back), and is a silent
no-op when the ring file no longer opens; but a reserved consumer slot out
of range makes the cleanup panic instead of being a no-op. -/
theorem C1_cleanup_amended (dir ring : String) (fs : FileSystem)
    (pid slot : Nat) (allocs : List Client) :
    (lookupA fs (compute_ring_buffer_path dir ring) = none →
      cleanup_connections dir [(ring, allocs)] fs = some fs)
    ∧ (∀ rm : RingFile,
        lookupA fs (compute_ring_buffer_path dir ring) = some rm →
        insertA fs (compute_ring_buffer_path dir ring) rm = fs
        ∧ cleanup_connections dir [(ring, [Client.Producer pid])] fs
            = some (insertA fs (compute_ring_buffer_path dir ring)
                (if rm.producer_pid = pid then (rm.free_producer pid).1
                 else rm))
        ∧ (∀ c : ConsumerSlot, rm.consumer slot = some c →
            cleanup_connections dir [(ring, [Client.Consumer pid slot])] fs
              = some (insertA fs (compute_ring_buffer_path dir ring)
                  (if c.pid = pid then (rm.free_consumer slot pid).1
                   else rm)))
        ∧ (rm.consumer slot = none →
            cleanup_connections dir [(ring, [Client.Consumer pid slot])] fs
              = none)) := by
  constructor
  · intro h
    simp [cleanup_connections, List.foldlM, h]
  · intro rm h
    refine ⟨insertA_lookup_self fs _ rm h, ?_, ?_, ?_⟩
    · by_cases hp : rm.producer_pid = pid
      · simp [cleanup_connections, List.foldlM, h, cleanup_ring, hp]
      · simp [cleanup_connections, List.foldlM, h, cleanup_ring, hp]
    · intro c hc
      by_cases hcp : c.pid = pid
      · simp [cleanup_connections, List.foldlM, h, cleanup_ring, hc, hcp]
      · simp [cleanup_connections, List.foldlM, h, cleanup_ring, hc, hcp]
    · intro hc
      simp [cleanup_connections, List.foldlM, h, cleanup_ring, hc]

/-- C1 (amended) witness: concrete instance of the cleanup
characterization, a producer reservation processed on the example file
system and the out-of-range consumer reservation panicking. -/
theorem C1_cleanup_amended_witness :
    cleanup_connections "d" [("R", [Client.Producer 7])] exFS
      = some (insertA exFS (compute_ring_buffer_path "d" "R")
          (if exRingFile.producer_pid = 7 then (exRingFile.free_producer 7).1
           else exRingFile))
    ∧ cleanup_connections "d" [("R", [Client.Consumer 7 5])] exFS = none :=
  ⟨((C1_cleanup_amended "d" "R" exFS 7 5 []).2 exRingFile (by decide)).2.1,
   ((C1_cleanup_amended "d" "R" exFS 7 5 []).2 exRingFile
      (by decide)).2.2.2 (by decide)⟩

/-- C6 (amended): the name used for the inventory lookup is the ring
argument with its first and last characters removed whenever the argument is
longer than two characters, whether or not those characters are braces;
names of length at most two pass through unchanged; and CONNECT fails the
inventory lookup exactly on the stripped name. -/
theorem C6_strip_amended (s : String) (inventory : RingInventory)
    (ct pidstr cm : String) (cp : Nat) :
    (s.length ≤ 2 → strip_ring_name s = s)
    ∧ (2 < s.length →
        strip_ring_name s = String.mk ((s.toList.drop 1).dropLast))
    ∧ (lookupA inventory (strip_ring_name s) = none →
        (connect_client true s ct pidstr cm inventory cp).replies
          = [Reply.fail "No such ringbuffer in inventory"]) := by
  refine ⟨?_, ?_, ?_⟩
  · intro h
    have : ¬ s.length > 2 := by omega
    simp [strip_ring_name, this]
  · intro h
    simp [strip_ring_name, h]
  · intro h
    simp [connect_client, h]

/-- C6 (amended) witness: the stripping and the failed lookup evaluated at
concrete names. -/
theorem C6_strip_amended_witness :
    strip_ring_name "ab" = "ab"
    ∧ strip_ring_name "abcd" = String.mk (("abcd".toList.drop 1).dropLast)
    ∧ (connect_client true "abcd" "producer" "1" "" [] 0).replies
        = [Reply.fail "No such ringbuffer in inventory"] :=
  ⟨(C6_strip_amended "ab" [] "producer" "1" "" 0).1 (by decide),
   (C6_strip_amended "abcd" [] "producer" "1" "" 0).2.1 (by decide),
   (C6_strip_amended "abcd" [] "producer" "1" "" 0).2.2 (by decide)⟩

/-- C8 (amended): a request line consisting only of whitespace or the
terminator tokenizes to one empty word and is failed with
`FAIL Invalid Request` (unknown verb) and a socket shutdown, while
`FAIL Empty request` is the reply produced when a read returns no words
(socket exhausted or already shut down), after which the loop breaks. -/
theorem C8_empty_line_amended (dir line : String) (st : HandlerState)
    (hline : trimChars line.toList = []) :
    (process_request dir (line_to_words line) st).replies
      = [Reply.fail "Invalid Request"]
    ∧ (process_request dir (line_to_words line) st).state.closed = true
    ∧ (process_request dir ([] : List String) st).replies
      = [Reply.fail "Empty request"]
    ∧ (process_request dir ([] : List String) st).state.term = Term.broke := by
  have hw : line_to_words line = [""] := by
    simp only [String.toList] at hline
    simp [line_to_words, String.toList, hline, splitChars]
  rw [hw]
  refine ⟨?_, ?_, ?_, ?_⟩ <;>
    simp [process_request, Reply.isFail]

/-- C8 (amended) witness: the terminator-only line and the empty read
evaluated on the example state. -/
theorem C8_empty_line_amended_witness :
    (process_request "d" (line_to_words "\r\n") exInit).replies
      = [Reply.fail "Invalid Request"]
    ∧ (process_request "d" (line_to_words "\r\n") exInit).state.closed = true
    ∧ (process_request "d" ([] : List String) exInit).replies
      = [Reply.fail "Empty request"]
    ∧ (process_request "d" ([] : List String) exInit).state.term
      = Term.broke :=
  C8_empty_line_amended "d" "\r\n" exInit (by decide)


/-- Helper: when no held registration carries a pid, the structural search
of `connection_exists` finds no client value carrying that pid. -/
theorem connection_exists_false_of_pid_ne (regs : List Client) (pv : Nat)
    (h : ∀ c ∈ regs, c.pid ≠ pv) (cl : Client) (hcl : cl.pid = pv) :
    connection_exists cl regs = false := by
  induction regs with
  | nil => rfl
  | cons hd tl ih =>
      have hhd : ¬ cl = hd := by
        intro he
        exact h hd (List.mem_cons_self hd tl) (he ▸ hcl)
      have hrest := ih (fun c hc => h c (List.mem_cons_of_mem hd hc))
      simp only [connection_exists, List.any_cons, Bool.or_eq_false_iff] at hrest ⊢
      exact ⟨by simp [hhd], hrest⟩

/-- C5 (amended): a DISCONNECT carrying a pid different from the set
claimed pid, on a ring under which this connection holds registrations, is
rejected with the spoof failure written first and leaves the claimed pid
unchanged; when no held registration carries the offered pid nothing further
happens, but the source continues past the rejection, so a registration that
does carry the offered pid (reachable via the sentinel pid) is still freed
and removed despite the rejection. -/
theorem C5_disconnect_spoof_amended (ring ct pidstr dir : String)
    (connections : Connections) (fs : FileSystem) (cp pv : Nat)
    (regs : List Client)
    (hparse : parse_u32 pidstr = some pv) (hne : pv ≠ cp)
    (hcp : cp ≠ UNUSED_ENTRY)
    (hregs : lookupA connections (strip_ring_name ring) = some regs) :
    (disconnect_client true ring ct pidstr dir connections fs cp).replies.head?
      = some (Reply.fail "attemped PID spoof")
    ∧ (disconnect_client true ring ct pidstr dir connections fs cp).client_pid
      = cp
    ∧ ((∀ c ∈ regs, c.pid ≠ pv) →
        (disconnect_client true ring ct pidstr dir connections fs cp).fs = fs
        ∧ (disconnect_client true ring ct pidstr dir connections fs cp).removed
          = none) := by
  have hsp : pv ≠ cp ∧ cp ≠ UNUSED_ENTRY := ⟨hne, hcp⟩
  simp only [disconnect_client, hregs, hparse, if_true, if_pos hsp]
  rcases hct : split_role ct with _ | ⟨t, _ | ⟨sl, _ | _⟩⟩ <;>
    simp only [hct]
  · simp
  · by_cases ht : t = "producer"
    · subst ht
      simp only [ne_eq, not_true_eq_false, if_false]
      by_cases hex : connection_exists (Client.Producer pv) regs = true
      · simp only [hex, if_true]
        refine ⟨by simp, trivial, fun hno => ?_⟩
        have hfalse := connection_exists_false_of_pid_ne regs pv hno
          (Client.Producer pv) rfl
        rw [hfalse] at hex
        cases hex
      · simp only [Bool.not_eq_true] at hex
        simp [hex]
    · simp [ht]
  · by_cases ht : t = "consumer"
    · subst ht
      simp only [ne_eq, not_true_eq_false, if_false]
      rcases hsl : parse_u32 sl with _ | slot
      · simp [hsl]
      · simp only [hsl]
        by_cases hex : connection_exists (Client.Consumer pv slot) regs = true
        · simp only [hex, if_true]
          refine ⟨by simp, trivial, fun hno => ?_⟩
          have hfalse := connection_exists_false_of_pid_ne regs pv hno
            (Client.Consumer pv slot) rfl
          rw [hfalse] at hex
          cases hex
        · simp only [Bool.not_eq_true] at hex
          simp [hex]
    · simp [ht]
  · simp

/-- C5 (amended) witness: concrete spoofed DISCONNECT whose offered pid
matches no held registration, evaluated to the spoof failure with no further
effect. -/
theorem C5_disconnect_spoof_amended_witness :
    (disconnect_client true "\x7bR\x7d" "producer" "7" "d"
      [("R", [Client.Producer 42])] exFS 42).replies.head?
      = some (Reply.fail "attemped PID spoof")
    ∧ (disconnect_client true "\x7bR\x7d" "producer" "7" "d"
        [("R", [Client.Producer 42])] exFS 42).client_pid = 42
    ∧ (disconnect_client true "\x7bR\x7d" "producer" "7" "d"
        [("R", [Client.Producer 42])] exFS 42).fs = exFS
    ∧ (disconnect_client true "\x7bR\x7d" "producer" "7" "d"
        [("R", [Client.Producer 42])] exFS 42).removed = none := by
  have h := C5_disconnect_spoof_amended "\x7bR\x7d" "producer" "7" "d"
    [("R", [Client.Producer 42])] exFS 42 7 [Client.Producer 42]
    (by decide) (by decide) (by decide) (by decide)
  have h3 := h.2.2 (by decide)
  exact ⟨h.1, h.2.1, h3.1, h3.2⟩

/-- Helper: `connect_client` either succeeds, answering exactly one `OK`
and producing a client to record, or fails, answering exactly one failure
and producing no client. -/
theorem connect_client_cases (is_local : Bool) (ring ct pidstr cm : String)
    (inv : RingInventory) (cp : Nat) :
    (∃ c, (connect_client is_local ring ct pidstr cm inv cp).client = some c
      ∧ (connect_client is_local ring ct pidstr cm inv cp).replies
          = [Reply.ok])
    ∨ ((connect_client is_local ring ct pidstr cm inv cp).client = none
      ∧ ∃ m, (connect_client is_local ring ct pidstr cm inv cp).replies
          = [Reply.fail m]) := by
  unfold connect_client
  repeat' split <;> (try simp)

/-- Helper: replacing the looked-up registration vector of a ring by the
same vector with one client pushed grows the reservation count by one. -/
theorem countClients_insert_append (conns : Connections) (k : String)
    (entry : List Client) (c : Client) (h : lookupA conns k = some entry) :
    countClients (insertA conns k (entry ++ [c])) = countClients conns + 1 := by
  induction conns with
  | nil => simp [lookupA] at h
  | cons hd tl ih =>
      obtain ⟨k0, v0⟩ := hd
      by_cases hk : k0 = k
      · subst hk
        simp only [lookupA, if_pos] at h
        rw [Option.some.injEq] at h
        subst h
        simp [insertA, countClients]
        omega
      · simp only [lookupA, if_neg hk] at h
        simp only [insertA, if_neg hk]
        simp [countClients] at ih ⊢
        have := ih h
        omega

/-- Helper: `record_connection` grows the reservation count by exactly
one. -/
theorem countClients_record (ring : String) (conns : Connections)
    (c : Client) :
    countClients (record_connection ring conns c)
      = countClients conns + 1 := by
  unfold record_connection
  rcases h : lookupA conns (strip_ring_name ring) with _ | entry
  · simp [h, countClients]
  · simp only [h]
    exact countClients_insert_append conns (strip_ring_name ring) entry c h

/-- C9: a CONNECT request never touches the ring files or the inventory
and produces no effect; when it succeeds the only state change beyond the
reply is that the reservation map of the connection gains exactly one
`Client` entry. -/
theorem C9_connect_frame (dir : String) (request : List String) (st : HandlerState)
    (hreq : request.get? 0 = some "CONNECT") :
    (process_request dir request st).state.fs = st.fs
    ∧ (process_request dir request st).state.inventory = st.inventory
    ∧ (process_request dir request st).effects = []
    ∧ (req_success (process_request dir request st).replies = true →
        countClients (process_request dir request st).state.connections
          = countClients st.connections + 1) := by
  cases request with
  | nil => simp [List.get?] at hreq
  | cons verb rest =>
      simp only [List.get?] at hreq
      rw [Option.some.injEq] at hreq
      subst hreq
      by_cases hlen : ("CONNECT" :: rest).length < 4
      · simp only [process_request, if_pos hlen]
        simp [req_success]
      · simp only [process_request, if_neg hlen]
        rcases hc : (connect_client st.is_local (("CONNECT" :: rest).get! 1)
            (("CONNECT" :: rest).get! 2) (("CONNECT" :: rest).get! 3)
            (if ("CONNECT" :: rest).length = 5 then ("CONNECT" :: rest).get! 4
             else "") st.inventory st.pid).client with _ | c
        · simp only [hc]
          refine ⟨by simp, by simp, by simp, fun hs => ?_⟩
          have hcase := connect_client_cases st.is_local
            (("CONNECT" :: rest).get! 1) (("CONNECT" :: rest).get! 2)
            (("CONNECT" :: rest).get! 3)
            (if ("CONNECT" :: rest).length = 5 then ("CONNECT" :: rest).get! 4
             else "") st.inventory st.pid
          rcases hcase with ⟨c, hcc, _⟩ | ⟨_, m, hm⟩
          · rw [hc] at hcc
            cases hcc
          · rw [hm] at hs
            simp [req_success] at hs
        · simp only [hc]
          refine ⟨by simp, by simp, by simp, fun hs => ?_⟩
          simp [countClients_record]

/-- C9 witness: the frame property evaluated on a concrete successful
CONNECT. -/
theorem C9_connect_frame_witness :
    (process_request "d" ["CONNECT", "\x7bR\x7d", "producer", "42"]
      exInit).state.fs = exInit.fs
    ∧ (process_request "d" ["CONNECT", "\x7bR\x7d", "producer", "42"]
        exInit).state.inventory = exInit.inventory
    ∧ (process_request "d" ["CONNECT", "\x7bR\x7d", "producer", "42"]
        exInit).effects = []
    ∧ countClients (process_request "d"
        ["CONNECT", "\x7bR\x7d", "producer", "42"]
        exInit).state.connections = countClients exInit.connections + 1 := by
  have h := C9_connect_frame "d" ["CONNECT", "\x7bR\x7d", "producer", "42"]
    exInit (by decide)
  exact ⟨h.1, h.2.1, h.2.2.1, h.2.2.2 (by decide)⟩

/-- Helper: the `remove_all` fold over distinct present pids emits, for
each pid in order, the stop-monitor effect and the SIGKILL attempt. -/
theorem remove_fold_effects (pids : List Nat) :
    ∀ (info : RingBufferInfo) (acc : List Effect),
    (∀ p ∈ pids, (lookupA info.client_monitors p).isSome) → pids.Nodup →
    (pids.foldl remove_step (info, acc)).2
      = acc ++ pids.flatMap (fun p => [Effect.stopMonitor p, Effect.kill p]) := by
  induction pids with
  | nil => intro info acc _ _; simp
  | cons p rest ih =>
      intro info acc hp hnd
      have hps : (lookupA info.client_monitors p).isSome :=
        hp p (List.mem_cons_self p rest)
      rcases hv : lookupA info.client_monitors p with _ | v
      · rw [hv] at hps; cases hps
      · simp only [List.foldl_cons]
        have hstep : remove_step (info, acc) p
            = ({ info with client_monitors := removeA info.client_monitors p },
               acc ++ [Effect.stopMonitor p, Effect.kill p]) := by
          simp [remove_step, RingBufferInfo.remove_client, hv]
        rw [hstep]
        have hnd2 := (List.nodup_cons.mp hnd).2
        have hpne := (List.nodup_cons.mp hnd).1
        have hp2 : ∀ q ∈ rest,
            (lookupA (removeA info.client_monitors p) q).isSome := by
          intro q hq
          have hqp : p ≠ q := fun he => hpne (he ▸ hq)
          rw [lookup_removeA_ne _ p q hqp]
          exact hp q (List.mem_cons_of_mem p hq)
        rw [ih _ _ hp2 hnd2]
        simp [List.flatMap_cons]

/-- Helper: with the unique keys of a HashMap, `remove_all` emits exactly
the stop-monitor and kill effects of every recorded pid. -/
theorem remove_all_effects (info : RingBufferInfo)
    (hnd : (info.client_monitors.map Prod.fst).Nodup) :
    (info.remove_all).2 = (info.client_monitors.map Prod.fst).flatMap
        (fun p => [Effect.stopMonitor p, Effect.kill p]) := by
  unfold RingBufferInfo.remove_all
  simpa using remove_fold_effects _ info []
    (fun p hp => mem_keys_lookup_isSome _ p hp) hnd

/-- Helper: the listing loop of `list_rings` collects exactly the
inventory names whose ring file no longer opens, in inventory order. -/
theorem list_scan_gone (fs : FileSystem) (dir : String)
    (inv : RingInventory) :
    ∀ (t : TclList) (acc : List String),
    (inv.foldl (list_scan_step fs dir) (t, acc)).2
      = acc ++ (inv.map Prod.fst).filter
          (fun n => (lookupA fs (compute_ring_buffer_path dir n)).isNone) := by
  induction inv with
  | nil => intro t acc; simp
  | cons nv rest ih =>
      intro t acc
      rcases h : lookupA fs (compute_ring_buffer_path dir nv.1) with _ | rm
      · simp only [List.foldl_cons, list_scan_step, get_ring_list_info, h]
        rw [ih]
        simp [h]
      · simp only [List.foldl_cons, list_scan_step, get_ring_list_info, h]
        rw [ih]
        simp [h]

/-- Helper: the pruning fold only appends effects, so earlier effects
remain in the trace. -/
theorem prune_fold_acc_mem (bads : List String) :
    ∀ (inv : RingInventory) (acc : List Effect) (e : Effect), e ∈ acc →
    e ∈ (bads.foldl prune_step (inv, acc)).2 := by
  induction bads with
  | nil => intro inv acc e he; simpa using he
  | cons b rest ih =>
      intro inv acc e he
      simp only [List.foldl_cons]
      rcases h : lookupA inv b with _ | ib
      · simp only [prune_step, h]
        exact ih inv acc e he
      · simp only [prune_step, h]
        exact ih _ _ e (List.mem_append_left _ he)

/-- Helper: the pruning fold never adds inventory entries, so an unbound
ring stays unbound. -/
theorem prune_fold_lookup_none (bads : List String) :
    ∀ (inv : RingInventory) (acc : List Effect) (ring : String),
    lookupA inv ring = none →
    lookupA (bads.foldl prune_step (inv, acc)).1 ring = none := by
  induction bads with
  | nil => intro inv acc ring h; simpa using h
  | cons b rest ih =>
      intro inv acc ring h
      simp only [List.foldl_cons]
      rcases hb : lookupA inv b with _ | ib
      · simp only [prune_step, hb]
        exact ih inv acc ring h
      · simp only [prune_step, hb]
        exact ih _ _ ring (lookup_removeA_none inv b ring h)

/-- Helper: a ring in the gone list with a bound record is removed by the
pruning fold and its `remove_all` effects appear in the trace. -/
theorem prune_fold_prunes (bads : List String) :
    ∀ (inv : RingInventory) (acc : List Effect) (ring : String)
      (info : RingBufferInfo),
    ring ∈ bads → lookupA inv ring = some info →
    (inv.map Prod.fst).Nodup →
    lookupA (bads.foldl prune_step (inv, acc)).1 ring = none
    ∧ ∀ e ∈ (info.remove_all).2, e ∈ (bads.foldl prune_step (inv, acc)).2 := by
  induction bads with
  | nil => intro inv acc ring info hmem; simp at hmem
  | cons b rest ih =>
      intro inv acc ring info hmem hinv hnd
      by_cases hb : ring = b
      · subst hb
        simp only [List.foldl_cons, prune_step, hinv]
        constructor
        · exact prune_fold_lookup_none rest _ _ ring
            (lookup_removeA_self inv ring hnd)
        · intro e he
          exact prune_fold_acc_mem rest _ _ e (List.mem_append_right _ he)
      · have hmem2 : ring ∈ rest := by
          rcases List.mem_cons.mp hmem with h | h
          · exact absurd h hb
          · exact h
        simp only [List.foldl_cons]
        rcases hlb : lookupA inv b with _ | ib
        · simp only [prune_step, hlb]
          exact ih inv acc ring info hmem2 hinv hnd
        · simp only [prune_step, hlb]
          have hbne : b ≠ ring := fun he => hb he.symm
          have hinv2 : lookupA (removeA inv b) ring = some info := by
            rw [lookup_removeA_ne inv b ring hbne]
            exact hinv
          exact ih _ _ ring info hmem2 hinv2 (removeA_keys_nodup inv b hnd)

/-- C10: an UNREGISTER of an inventoried ring, and a LIST that finds a
ring whose file no longer opens, both run `remove_all` on the ring record —
emitting, for every recorded client pid, the stop of its monitor and the
SIGKILL attempt — and remove the inventory entry. -/
theorem C10_unregister_and_prune_kill (ring : String) (inventory : RingInventory)
    (info : RingBufferInfo) (dir : String) (fs : FileSystem)
    (hinv : lookupA inventory ring = some info)
    (hnd : (inventory.map Prod.fst).Nodup)
    (hmnd : (info.client_monitors.map Prod.fst).Nodup) :
    ((unregister_ring true ring inventory).1 = [Reply.ok]
      ∧ lookupA (unregister_ring true ring inventory).2.1 ring = none
      ∧ ∀ pid ∈ info.client_monitors.map Prod.fst,
          Effect.stopMonitor pid ∈ (unregister_ring true ring inventory).2.2
          ∧ Effect.kill pid ∈ (unregister_ring true ring inventory).2.2)
    ∧ (lookupA fs (compute_ring_buffer_path dir ring) = none →
        lookupA (list_rings dir inventory fs).2.1 ring = none
        ∧ ∀ pid ∈ info.client_monitors.map Prod.fst,
            Effect.stopMonitor pid ∈ (list_rings dir inventory fs).2.2
            ∧ Effect.kill pid ∈ (list_rings dir inventory fs).2.2) := by
  have heff : ∀ pid ∈ info.client_monitors.map Prod.fst,
      Effect.stopMonitor pid ∈ (info.remove_all).2
      ∧ Effect.kill pid ∈ (info.remove_all).2 := by
    intro pid hpid
    rw [remove_all_effects info hmnd]
    constructor
    · exact List.mem_flatMap.mpr ⟨pid, hpid, by simp⟩
    · exact List.mem_flatMap.mpr ⟨pid, hpid, by simp⟩
  constructor
  · simp only [unregister_ring, hinv, if_true]
    refine ⟨by trivial, lookup_removeA_self inventory ring hnd, heff⟩
  · intro hfs
    have hgone : ring ∈ (inventory.foldl (list_scan_step fs dir)
        (TclList.new, [])).2 := by
      rw [list_scan_gone fs dir inventory TclList.new []]
      simp only [List.nil_append]
      apply List.mem_filter.mpr
      refine ⟨lookup_some_mem_keys inventory ring info hinv, ?_⟩
      simp [hfs]
    have hp := prune_fold_prunes _ inventory [] ring info hgone hinv hnd
    simp only [list_rings]
    refine ⟨hp.1, ?_⟩
    intro pid hpid
    exact ⟨hp.2 _ (heff pid hpid).1, hp.2 _ (heff pid hpid).2⟩

/-- C10 witness: the kill-on-unregister and kill-on-prune behaviour
evaluated on a one-ring inventory holding client 4242. -/
theorem C10_unregister_and_prune_kill_witness :
    (unregister_ring true "ringA" [("ringA", bootInfo)]).1 = [Reply.ok]
    ∧ lookupA (unregister_ring true "ringA" [("ringA", bootInfo)]).2.1
        "ringA" = none
    ∧ Effect.stopMonitor 4242
        ∈ (unregister_ring true "ringA" [("ringA", bootInfo)]).2.2
    ∧ Effect.kill 4242
        ∈ (unregister_ring true "ringA" [("ringA", bootInfo)]).2.2
    ∧ lookupA (list_rings "d" [("ringA", bootInfo)] []).2.1 "ringA" = none
    ∧ Effect.kill 4242 ∈ (list_rings "d" [("ringA", bootInfo)] []).2.2 := by
  have h := C10_unregister_and_prune_kill "ringA" [("ringA", bootInfo)]
    bootInfo "d" [] (by decide) (by decide) (by decide)
  have hb := h.2 (by decide)
  exact ⟨h.1.1, h.1.2.1, (h.1.2.2 4242 (by decide)).1,
    (h.1.2.2 4242 (by decide)).2, hb.1, (hb.2 4242 (by decide)).2⟩

/-- Helper: once the claimed pid of a connection is set (not the sentinel),
CONNECT never changes it. -/
theorem connect_client_pid_mono (is_local : Bool) (ring ct pidstr cm : String)
    (inv : RingInventory) (cp : Nat) (h : cp ≠ UNUSED_ENTRY) :
    (connect_client is_local ring ct pidstr cm inv cp).client_pid = cp := by
  unfold connect_client
  repeat' split <;> (try simp_all)

/-- Helper: once the claimed pid of a connection is set (not the sentinel),
DISCONNECT never changes it. -/
theorem disconnect_client_pid_mono (ring ct pidstr dir : String)
    (connections : Connections) (fs : FileSystem) (cp : Nat)
    (is_local : Bool) (h : cp ≠ UNUSED_ENTRY) :
    (disconnect_client is_local ring ct pidstr dir connections fs
      cp).client_pid = cp := by
  unfold disconnect_client
  repeat' split <;> (try simp_all)

/-- Helper: a CONNECT whose first reply is `OK` leaves the claimed pid
equal to the pid it carried. -/
theorem connect_client_success_pid (is_local : Bool)
    (ring ct pidstr cm : String) (inv : RingInventory) (cp pv : Nat)
    (hp : parse_u32 pidstr = some pv)
    (hs : req_success
      (connect_client is_local ring ct pidstr cm inv cp).replies = true) :
    (connect_client is_local ring ct pidstr cm inv cp).client_pid = pv := by
  unfold connect_client at hs ⊢
  rw [hp] at hs ⊢
  simp only [req_success] at hs
  split at hs
  · next heq =>
      repeat' split at heq <;> (try simp_all)
      all_goals (try (split <;> (try simp_all)))
      all_goals tauto
  · cases hs

/-- Helper: a DISCONNECT whose first reply is `OK` leaves the claimed pid
equal to the pid it carried. -/
theorem disconnect_client_success_pid (ring ct pidstr dir : String)
    (connections : Connections) (fs : FileSystem) (cp pv : Nat)
    (is_local : Bool)
    (hp : parse_u32 pidstr = some pv)
    (hs : req_success (disconnect_client is_local ring ct pidstr dir
      connections fs cp).replies = true) :
    (disconnect_client is_local ring ct pidstr dir connections fs
      cp).client_pid = pv := by
  unfold disconnect_client at hs ⊢
  rw [hp] at hs ⊢
  simp only [req_success] at hs
  split at hs
  · next heq =>
      repeat' split at heq <;> (try simp_all)
      all_goals (try (split <;> (try simp_all)))
      all_goals tauto
  · cases hs

/-- Helper: no request changes a claimed pid that is already set. -/
theorem process_request_pid_mono (dir : String) (request : List String)
    (st : HandlerState) (h : st.pid ≠ UNUSED_ENTRY) :
    (process_request dir request st).state.pid = st.pid := by
  cases request with
  | nil => rfl
  | cons verb rest =>
      simp only [process_request]
      repeat' split <;>
        (try simp_all [connect_client_pid_mono, disconnect_client_pid_mono])

/-- Helper: a successful request carrying a pid leaves the claimed pid
equal to that pid. -/
theorem process_request_success_pid (dir : String) (request : List String)
    (st : HandlerState) (p : Nat)
    (hs : req_success (process_request dir request st).replies = true)
    (hc : carried_pid request = some p) :
    (process_request dir request st).state.pid = p := by
  cases request with
  | nil => simp [process_request, req_success] at hs
  | cons verb rest =>
      unfold carried_pid at hc
      split at hc
      case isFalse => cases hc
      case isTrue hcond =>
        obtain ⟨hlen, hverb⟩ := hcond
        rcases hverb with hverb | hverb
        · -- CONNECT
          have hv : verb = "CONNECT" := hverb
          subst hv
          have hlt : ¬ ("CONNECT" :: rest).length < 4 := by omega
          simp only [process_request] at hs ⊢
          rw [if_neg (by decide), if_neg (by decide), if_neg (by decide),
            if_pos (by decide), if_neg hlt] at hs ⊢
          rcases hr : (connect_client st.is_local
              (("CONNECT" :: rest).get! 1) (("CONNECT" :: rest).get! 2)
              (("CONNECT" :: rest).get! 3)
              (if ("CONNECT" :: rest).length = 5
               then ("CONNECT" :: rest).get! 4 else "")
              st.inventory st.pid).client with _ | c <;>
            simp only [hr] at hs ⊢ <;>
            exact connect_client_success_pid _ _ _ _ _ _ _ _ hc hs
        · -- DISCONNECT
          have hv : verb = "DISCONNECT" := hverb
          subst hv
          by_cases hl4 : ("DISCONNECT" :: rest).length = 4
          · simp only [process_request] at hs ⊢
            rw [if_neg (by decide), if_neg (by decide), if_neg (by decide),
              if_neg (by decide), if_pos (by decide),
              if_neg (by simp [hl4])] at hs ⊢
            rcases hr : (disconnect_client st.is_local
                (("DISCONNECT" :: rest).get! 1)
                (("DISCONNECT" :: rest).get! 2)
                (("DISCONNECT" :: rest).get! 3) dir st.connections st.fs
                st.pid).removed with _ | c <;>
              simp only [hr] at hs ⊢ <;>
              exact disconnect_client_success_pid _ _ _ _ _ _ _ _ _ hc hs
          · simp only [process_request] at hs
            rw [if_neg (by decide), if_neg (by decide), if_neg (by decide),
              if_neg (by decide), if_pos (by decide), if_pos hl4] at hs
            simp [req_success] at hs

/-- Helper: the request loop never changes a claimed pid that is already
set. -/
theorem run_loop_pid_mono (dir : String) (lines : List String) :
    ∀ st : HandlerState, st.pid ≠ UNUSED_ENTRY →
    (run_loop dir lines st).1.pid = st.pid := by
  induction lines with
  | nil =>
      intro st h
      unfold run_loop
      split
      · exact process_request_pid_mono dir [] st h
      · rfl
  | cons l rest ih =>
      intro st h
      unfold run_loop
      split
      · rfl
      · split
        · exact process_request_pid_mono dir [] st h
        · have h2 : (process_request dir (line_to_words l) st).state.pid
              = st.pid := process_request_pid_mono dir _ st h
          rw [ih _ (by rw [h2]; exact h)]
          exact h2

/-- Helper: every pid carried by a successful request of a run, other than
the sentinel, equals the claimed pid at the end of the run. -/
theorem run_loop_success_pid (dir : String) (lines : List String) :
    ∀ (st : HandlerState) (p : Nat),
    p ∈ successful_pids (run_loop dir lines st).2.1 → p ≠ UNUSED_ENTRY →
    (run_loop dir lines st).1.pid = p := by
  induction lines with
  | nil =>
      intro st p hp hne
      unfold run_loop at hp ⊢
      split at hp
      · simp [successful_pids, process_request, req_success] at hp
      · simp [successful_pids] at hp
  | cons l rest ih =>
      intro st p hp hne
      by_cases hterm : st.term ≠ Term.opened
      · unfold run_loop at hp
        rw [if_pos hterm] at hp
        simp [successful_pids] at hp
      · by_cases hcl : st.closed = true
        · unfold run_loop at hp
          rw [if_neg hterm, if_pos hcl] at hp
          simp [successful_pids, process_request, req_success] at hp
        · unfold run_loop at hp ⊢
          rw [if_neg hterm, if_neg hcl] at hp ⊢
          simp only [successful_pids, List.filterMap_cons] at hp
          simp only []
          split at hp
          · exact ih _ p hp hne
          · next v hv =>
              rcases List.mem_cons.mp hp with hph | hpt
              · subst hph
                split at hv
                case isTrue hsucc =>
                  have hpid := process_request_success_pid dir
                    (line_to_words l) st p hsucc hv
                  rw [run_loop_pid_mono dir rest _ (by rw [hpid]; exact hne)]
                  exact hpid
                case isFalse => cases hv
              · exact ih _ p hpt hne

/-- C2 (amended): all pids other than the `UNUSED_ENTRY` sentinel carried
by successful CONNECT or DISCONNECT requests of one connection are equal; a
request carrying the sentinel pid itself succeeds without claiming, so the
sentinel must be excluded from the single-pid-per-connection property. -/
theorem C2_single_pid_amended (dir : String) (lines : List String)
    (st : HandlerState) (p1 p2 : Nat)
    (h1 : p1 ∈ successful_pids (handle_request dir lines st).log)
    (h2 : p2 ∈ successful_pids (handle_request dir lines st).log)
    (hn1 : p1 ≠ UNUSED_ENTRY) (hn2 : p2 ≠ UNUSED_ENTRY) : p1 = p2 := by
  have e1 := run_loop_success_pid dir lines st p1 h1 hn1
  have e2 := run_loop_success_pid dir lines st p2 h2 hn2
  rw [← e1, e2]

/-- C2 (amended) witness: the single-pid property applied to a concrete run
with one successful CONNECT carrying pid 42. -/
theorem C2_single_pid_amended_witness : (42 : Nat) = 42 :=
  C2_single_pid_amended "d" ["CONNECT \x7bR\x7d producer 42\n"] exInit 42 42
    (by decide) (by decide) (by decide) (by decide)

end RingMaster
